import Mathlib

/-!
Verification development for the TIIP repository (Django background tasks
and schema migrations).  The Python code of `src/django/project/tasks.py`
and the two migration files is shallowly embedded below: Python dictionaries
become association lists over a `PyVal` value type, Django ORM lookups
become `List.find?` over explicit record tables, `try`/`except` blocks
become matches on `Except PyError`, and each Celery task becomes a pure
function from its inputs (settings, tables, HTTP statuses) to the mails it
sends, the database state it leaves behind, and the error it raises, if any.
-/

namespace TIIP

/-- Python runtime and framework exceptions that the embedded code can raise. -/
inductive PyError
  | nameError
  | valueError
  | typeError
  | keyError
  | indexError
  | attributeError
  | validationError
  | objectDoesNotExist
  | httpError (status : Nat)
deriving DecidableEq, Repr

/-- JSON-ish Python values: the payloads moved around by the ODK import task. -/
inductive PyVal
  | str (s : String)
  | int (n : Int)
  | bool (b : Bool)
  | list (l : List PyVal)
  | obj (l : List (String × PyVal))
  | none
deriving Repr

/-- A Python dictionary with string keys, as an insertion-ordered association list. -/
abbrev PyDict := List (String × PyVal)

/-- Python `==` between values: same-type structural comparison, `bool`/`int`
numeric cross-equality (`True == 1`), every other cross-type comparison false. -/
def pyEq : PyVal → PyVal → Bool
  | .str a, .str b => a == b
  | .int a, .int b => a == b
  | .bool a, .bool b => a == b
  | .bool a, .int b => (if a then (1 : Int) else 0) == b
  | .int a, .bool b => a == (if b then (1 : Int) else 0)
  | .none, .none => true
  | .list [], .list [] => true
  | .list (a :: as), .list (b :: bs) => pyEq a b && pyEq (.list as) (.list bs)
  | .obj [], .obj [] => true
  | .obj ((k, v) :: r), .obj ((k2, v2) :: r2) => k == k2 && pyEq v v2 && pyEq (.obj r) (.obj r2)
  | _, _ => false

/-- Python truthiness of a value. -/
def pyTruthy : PyVal → Bool
  | .none => false
  | .bool b => b
  | .int n => n != 0
  | .str s => s != ""
  | .list l => !l.isEmpty
  | .obj l => !l.isEmpty

/-- `d.get(k)` / `d[k]` lookup: first binding of the key. -/
def dictGet : PyDict → String → Option PyVal
  | [], _ => Option.none
  | (k', v') :: rest, k => if k' == k then some v' else dictGet rest k

/-- `d[k] = v`: update the key in place if present, else append it at the end
(Python dicts keep insertion order). -/
def dictSet : PyDict → String → PyVal → PyDict
  | [], k, v => [(k, v)]
  | (k', v') :: rest, k, v => if k' == k then (k, v) :: rest else (k', v') :: dictSet rest k v

/-- `d.pop(k, None)`: remove the key's binding, if any. -/
def dictPop : PyDict → String → PyDict
  | [], _ => []
  | (k', v') :: rest, k => if k' == k then dictPop rest k else (k', v') :: dictPop rest k

/-- Whether the dictionary has a binding for the key. -/
def hasKey (d : PyDict) (k : String) : Bool := (dictGet d k).isSome

/-- Extract a Python string value. -/
def asString : PyVal → Option String
  | .str s => some s
  | _ => Option.none

/-- Python `sub in s` substring membership for non-empty `sub`. -/
def strContains (s sub : String) : Bool := (s.splitOn sub).length != 1

/-- The ASCII apostrophe character, as stripped by `escaped_int_converter`. -/
def quoteChar : Char := Char.ofNat 39

/-- Whether a string starts with an apostrophe (Python `value.startswith`). -/
def headIsQuote (s : String) : Bool :=
  match s.toList with
  | [] => false
  | c :: _ => c == quoteChar

/-- Remove every apostrophe from the string (Python `value.replace`). -/
def stripQuotes (s : String) : String := String.mk (s.toList.filter (fun c => c ≠ quoteChar))

/-- Python `str.lower()` for the ASCII strings this code compares. -/
def sLower (s : String) : String := String.mk (s.toList.map Char.toLower)

section DictLemmas

theorem dictGet_dictSet_self (d : PyDict) (k : String) (v : PyVal) :
    dictGet (dictSet d k v) k = some v := by
  induction d with
  | nil => simp [dictSet, dictGet]
  | cons hd tl ih =>
    obtain ⟨k', v'⟩ := hd
    by_cases h : k' = k
    · simp [dictSet, dictGet, h]
    · simp [dictSet, dictGet, h, ih]

theorem dictGet_dictSet_ne (d : PyDict) (k : String) (v : PyVal) (k' : String)
    (h : k' ≠ k) : dictGet (dictSet d k v) k' = dictGet d k' := by
  induction d with
  | nil => simp [dictSet, dictGet, Ne.symm h]
  | cons hd tl ih =>
    obtain ⟨k2, v2⟩ := hd
    by_cases h2 : k2 = k
    · subst h2
      simp [dictSet, dictGet, Ne.symm h]
    · by_cases h3 : k2 = k'
      · subst h3
        simp [dictSet, dictGet, h2]
      · simp [dictSet, dictGet, h2, h3, ih]

theorem dictGet_dictPop_ne (d : PyDict) (k k' : String) (h : k' ≠ k) :
    dictGet (dictPop d k) k' = dictGet d k' := by
  induction d with
  | nil => simp [dictPop]
  | cons hd tl ih =>
    obtain ⟨k2, v2⟩ := hd
    by_cases h2 : k2 = k
    · subst h2
      simp [dictPop, dictGet, Ne.symm h, ih]
    · by_cases h3 : k2 = k'
      · subst h3
        simp [dictPop, dictGet, h2]
      · simp [dictPop, dictGet, h2, h3, ih]

theorem hasKey_dictPop (d : PyDict) (k : String) : hasKey (dictPop d k) k = false := by
  induction d with
  | nil => simp [hasKey, dictPop, dictGet]
  | cons hd tl ih =>
    obtain ⟨k2, v2⟩ := hd
    by_cases h2 : k2 = k
    · simp [dictPop, h2, ih]
    · simpa [hasKey, dictPop, dictGet, h2] using ih

end DictLemmas

/-! ## The ODK import converters (`sync_project_from_odk` inner functions) -/

/-- `uuid_parser`: strip the `uuid:` marker from an identifier string. -/
def uuidParser (value : String) : String := value.replace "uuid:" ""

/-- `escaped_int_converter`: strip apostrophes from a quoted string and convert
to `int`; a non-numeric string raises `ValueError`, a non-number non-string
raises `TypeError` (Python `int()` semantics). -/
def escaped_int_converter : PyVal → Except PyError Int
  | .str s =>
    let s1 := if headIsQuote s then stripQuotes s else s
    match s1.trim.toInt? with
    | some n => .ok n
    | Option.none => .error .valueError
  | .int n => .ok n
  | .bool b => .ok (if b then 1 else 0)
  | _ => .error .typeError

/-- The double-quote character, the JSON string delimiter. -/
def dquoteChar : Char := Char.ofNat 34

/-- One scalar element of a flat JSON array: an integer or a quoted string. -/
def parseJsonScalar (s : String) : Option PyVal :=
  let t := s.trim
  match t.toInt? with
  | some n => some (.int n)
  | Option.none =>
    match t.toList with
    | c :: rest =>
      if c == dquoteChar && !rest.isEmpty && rest.getLast? == some dquoteChar then
        some (.str (String.mk rest.dropLast))
      else Option.none
    | [] => Option.none

/-- `list_parser` = `json.loads`, restricted to the flat JSON arrays of
integers and quoted strings that the embedded ODK columns carry; any other
text is a decode error (a `ValueError` subclass in Python), and a non-string
argument raises `TypeError`. -/
def listParser (v : PyVal) : Except PyError (List PyVal) :=
  match v with
  | .str s =>
    let t := s.trim
    if t.startsWith "[" && t.endsWith "]" then
      let inner := ((t.drop 1).dropRight 1).trim
      if inner == "" then .ok []
      else
        match (inner.splitOn ",").mapM parseJsonScalar with
        | some l => .ok l
        | Option.none => .error .valueError
    else .error .valueError
  | _ => .error .typeError

/-- `string_to_list`: split a comma-separated string, dropping empty pieces;
`.split` on a non-string raises `AttributeError`. -/
def string_to_list (v : PyVal) : Except PyError (List String) :=
  match v with
  | .str s => .ok ((s.splitOn ",").filter (fun x => x != ""))
  | _ => .error .attributeError

/-- The `Organisation` table: rows of (id, name). -/
abbrev OrgDB := List (Int × String)

/-- `Organisation.objects.get_or_create(name=value)`. -/
def org_get_or_create (orgs : OrgDB) (name : String) : Int × OrgDB :=
  match orgs.find? (fun o => o.2 == name) with
  | some o => (o.1, orgs)
  | Option.none =>
    let nid : Int := (orgs.map (·.1)).foldl max 0 + 1
    (nid, orgs ++ [(nid, name)])

/-- An `InteroperabilityLink` row (only its id is read by the task). -/
structure IntLink where
  id : Int
deriving DecidableEq, Repr

/-- The mutable state threaded through the column converters: the `project`
dictionary being built, the `int_link_collection` list of dictionaries, and
the `Organisation` table (written by `get_or_create`). -/
structure ParseState where
  project : PyDict
  links : List PyDict
  orgs : OrgDB

/-- `next((item for item in coll if item[key] == target), None)`: scan for the
first dictionary whose `key` entry equals `target`; an item without the key
raises `KeyError` during the scan. -/
def findFirstByKeyVal : List PyDict → String → PyVal → Except PyError (Option PyDict)
  | [], _, _ => .ok Option.none
  | d :: rest, key, target =>
    match dictGet d key with
    | Option.none => .error .keyError
    | some v => if pyEq v target then .ok (some d) else findFirstByKeyVal rest key target

/-- In-place mutation of the first dictionary matching `key == target`
(Python mutates the object yielded by `next`); the returned flag records
whether a match was found. -/
def updateFirstByKeyVal : List PyDict → String → PyVal → (PyDict → PyDict) →
    Except PyError (Bool × List PyDict)
  | [], _, _, _ => .ok (false, [])
  | d :: rest, key, target, f =>
    match dictGet d key with
    | Option.none => .error .keyError
    | some v =>
      if pyEq v target then .ok (true, f d :: rest)
      else
        match updateFirstByKeyVal rest key target f with
        | .error e => .error e
        | .ok (found, rest') => .ok (found, d :: rest')

/-- The `default_nld` dictionary of `first_level_converter`. -/
def nld_default : PyVal :=
  .obj [("clients", .int 0), ("facilities", .int 0), ("health_workers", .int 0)]

/-- The shared shape of the `clients` / `facilities` / `health_workers`
branches: fetch `national_level_deployment` (defaulting to `default_nld`),
set one field to the converted integer, store the dictionary back. -/
def nldUpdate (st : ParseState) (field : String) (value : PyVal) : Except PyError ParseState :=
  let nld := (dictGet st.project "national_level_deployment").getD nld_default
  match escaped_int_converter value with
  | .error e => .error e
  | .ok n =>
    match nld with
    | .obj d =>
      let p' := dictSet st.project "national_level_deployment" (.obj (dictSet d field (.int n)))
      .ok { st with project := p' }
    | _ => .error .typeError

/-- The shared shape of the json-int-list branches
(`health_focus_areas`, `his_bucket`, `hsc_challenges`, `licenses`,
`interoperability_standards`): `list_parser` then map `escaped_int_converter`. -/
def intListUpdate (st : ParseState) (field : String) (value : PyVal) :
    Except PyError ParseState :=
  match listParser value with
  | .error e => .error e
  | .ok l =>
    match l.mapM escaped_int_converter with
    | .error e => .error e
    | .ok ns => .ok { st with project := dictSet st.project field (.list (ns.map PyVal.int)) }

/-- The shared shape of the comma-list branches (`donors`,
`implementing_partners`): `string_to_list`. -/
def strListUpdate (st : ParseState) (field : String) (value : PyVal) :
    Except PyError ParseState :=
  match string_to_list value with
  | .error e => .error e
  | .ok l => .ok { st with project := dictSet st.project field (.list (l.map PyVal.str)) }

/-- Store the raw column value under the given project key. -/
def rawUpdate (st : ParseState) (field : String) (value : PyVal) :
    Except PyError ParseState :=
  .ok { st with project := dictSet st.project field value }

/-- `first_level_converter`: the `elif` dispatch on `column_type`, in source
order.  Errors are the Python exceptions each branch can raise; the caller
catches them per column. -/
def first_level_converter (value : PyVal) (column_type : String) (st : ParseState) :
    Except PyError ParseState :=
  if column_type == "name" then rawUpdate st "name" value
  else if column_type == "organization" then
    match escaped_int_converter value with
    | .ok n => .ok { st with project := dictSet st.project "organisation" (.int n) }
    | .error .valueError =>
      -- `except ValueError`: get_or_create by name (the value was a string)
      match value with
      | .str s =>
        let r := org_get_or_create st.orgs s
        .ok { st with project := dictSet st.project "organisation" (.int r.1), orgs := r.2 }
      | _ => .error .valueError
    | .error e => .error e
  else if column_type == "country" then
    match escaped_int_converter value with
    | .error e => .error e
    | .ok n => .ok { st with project := dictSet st.project "country" (.int n) }
  else if strContains column_type "platforms" then
    let platforms := (dictGet st.project "platforms").getD (.list [])
    match escaped_int_converter value with
    | .error e => .error e
    | .ok n =>
      match platforms with
      | .list ps =>
        let p' := dictSet st.project "platforms" (.list (ps ++ [.obj [("id", .int n)]]))
        .ok { st with project := p' }
      | _ => .error .typeError
  else if column_type == "clients" then nldUpdate st "clients" value
  else if column_type == "facilities" then nldUpdate st "facilities" value
  else if column_type == "health_workers" then nldUpdate st "health_workers" value
  else if column_type == "contact_email" then rawUpdate st "contact_email" value
  else if column_type == "contact_name" then rawUpdate st "contact_name" value
  else if column_type == "donors" then strListUpdate st "donors" value
  else if column_type == "end_date" then rawUpdate st "end_date" value
  else if column_type == "geographic_scope" then rawUpdate st "geographic_scope" value
  else if column_type == "government_investor" then
    match escaped_int_converter value with
    | .error e => .error e
    | .ok n => .ok { st with project := dictSet st.project "government_investor" (.int n) }
  else if column_type == "health_focus_areas" then intListUpdate st "health_focus_areas" value
  else if column_type == "health_information_systems" then intListUpdate st "his_bucket" value
  else if column_type == "health_system_challenges" then intListUpdate st "hsc_challenges" value
  else if column_type == "implementation_dates" then rawUpdate st "implementation_dates" value
  else if column_type == "implementation_overview" then
    rawUpdate st "implementation_overview" value
  else if column_type == "implementing_partners" then
    strListUpdate st "implementing_partners" value
  else if column_type == "licenses" then intListUpdate st "licenses" value
  else if column_type == "mobile_application" then rawUpdate st "mobile_application" value
  else if column_type == "repository" then rawUpdate st "repository" value
  else if column_type == "start_date" then rawUpdate st "start_date" value
  else if column_type == "wiki" then rawUpdate st "wiki" value
  else if column_type == "interoperability_standards" then
    intListUpdate st "interoperability_standards" value
  else if strContains column_type "interoperability_link_" &&
      !strContains column_type "_url" then
    match escaped_int_converter value with
    | .error .valueError => .ok st  -- caught and logged, id stays None, `if id:` skips
    | .error e => .error e
    | .ok n =>
      if n == 0 then .ok st  -- `if id:` — zero is falsy
      else
        match updateFirstByKeyVal st.links "id" (.int n)
            (fun d => dictSet (dictSet d "selected" (.bool true))
              "odk_name" (.str (column_type ++ "_url"))) with
        | .error e => .error e
        | .ok (false, _) => .error .typeError  -- il_obj is None: item assignment raises
        | .ok (true, links') => .ok { st with links := links' }
  else .ok st

/-- `second_level_converter`: the strategies-per-platform (`dhi`) branch and
the `interoperability_link_..._url` branch; `context["dhi_index"]` is the
extra `Nat`. -/
def second_level_converter (value : PyVal) (column_type : String) (st : ParseState)
    (dhi_index : Nat) : Except PyError (ParseState × Nat) :=
  if strContains column_type "dhi" then
    match dictGet st.project "platforms" with
    | Option.none => .error .keyError  -- project['platforms'] missing
    | some (.list ps) =>
      match ps.get? dhi_index with
      | Option.none => .error .indexError
      | some platform =>
        if pyTruthy platform then
          match listParser value with
          | .error e => .error e
          | .ok l =>
            match l.mapM escaped_int_converter with
            | .error e => .error e
            | .ok ns =>
              match platform with
              | .obj d =>
                let plat' := PyVal.obj (dictSet d "strategies" (.list (ns.map PyVal.int)))
                let p' := dictSet st.project "platforms" (.list (ps.set dhi_index plat'))
                .ok ({ st with project := p' }, dhi_index + 1)
              | _ => .error .typeError
        else .ok (st, dhi_index + 1)
    | some _ => .error .typeError  -- subscripting a non-list
  else if strContains column_type "interoperability_link_" &&
      strContains column_type "_url" then
    match findFirstByKeyVal st.links "odk_name" (.str column_type) with
    | .error e => .error e
    | .ok Option.none => .ok (st, dhi_index)  -- `if il_obj:` — None is falsy
    | .ok (some _) =>
      match asString value with
      | Option.none => .error .attributeError  -- value.lower() on a non-string
      | some s =>
        match updateFirstByKeyVal st.links "odk_name" (.str column_type)
            (fun d => dictSet d "link" (.str (sLower s))) with
        | .error e => .error e
        | .ok (_, links') => .ok ({ st with links := links' }, dhi_index)
  else .ok (st, dhi_index)

/-- The initial `int_link_collection`: one dictionary per interoperability
link, holding its `id` and `odk_name = None`. -/
def initIntLinkCollection (ils : List IntLink) : List PyDict :=
  ils.map (fun il => [("id", PyVal.int il.id), ("odk_name", PyVal.none)])

/-- The first loop of `odk_columns_parser`: each truthy (column, value) pair
goes through `first_level_converter`; any exception is printed and the column
skipped, leaving the state unchanged. -/
def runFirstPass : List PyDict → ParseState → ParseState
  | [], st => st
  | col :: rest, st =>
    let ctv := (dictGet col "column").getD PyVal.none
    let vv := (dictGet col "value").getD PyVal.none
    let st' :=
      if pyTruthy ctv && pyTruthy vv then
        match ctv with
        | .str cts =>
          match first_level_converter vv cts st with
          | .ok st2 => st2
          | .error _ => st
        | _ => st  -- non-string column name: the `in` checks raise, caught, skipped
      else st
    runFirstPass rest st'

/-- The second loop of `odk_columns_parser`, threading `dhi_index`;
`IndexError` is logged and every other exception printed — either way the
column is skipped with the state unchanged. -/
def runSecondPass : List PyDict → ParseState → Nat → ParseState
  | [], st, _ => st
  | col :: rest, st, dhi =>
    let ctv := (dictGet col "column").getD PyVal.none
    let vv := (dictGet col "value").getD PyVal.none
    let r :=
      if pyTruthy ctv && pyTruthy vv then
        match ctv with
        | .str cts =>
          match second_level_converter vv cts st dhi with
          | .ok r => r
          | .error _ => (st, dhi)
        | _ => (st, dhi)
      else (st, dhi)
    runSecondPass rest r.1 r.2

/-- `odk_columns_parser`: run both converter passes over the columns, then
drop the working `odk_name` key from every interoperability-link dictionary
and store the collection under `interoperability_links`. -/
def odkColumnsParser (columns : List PyDict) (interoperability_links : List IntLink)
    (orgs : OrgDB) : PyDict × OrgDB :=
  let st0 : ParseState := ⟨[], initIntLinkCollection interoperability_links, orgs⟩
  let st1 := runFirstPass columns st0
  let st2 := runSecondPass columns st1 0
  let finalLinks := st2.links.map (fun d => dictPop d "odk_name")
  (dictSet st2.project "interoperability_links" (.list (finalLinks.map PyVal.obj)), st2.orgs)

/-! ## The row pipeline: `parse_odk_data`, `serialize_and_save`,
`save_or_update_project`, `start_sync`, `sync_project_from_odk` -/

/-- One row of the ODK JSON export, with the fields the task reads.
`deleted` is kept as a raw JSON value: the code compares it to the string
`'true'` with Python `!=`. -/
structure OdkRow where
  rowETag : String
  id : String
  savepointType : Option String
  deleted : Option PyVal
  createUser : Option String
  lastUpdateUser : Option String
  locale : Option String
  savepointTimestamp : Option String
  savepointCreator : Option String
  filterScope : Option PyVal
  orderedColumns : List PyDict

/-- Wrap an optional string as a Python value (`None` when absent). -/
def optStr : Option String → PyVal
  | some s => .str s
  | Option.none => PyVal.none

/-- The `odk_extra_data` dictionary built in `start_sync`. -/
def odkExtraData (row : OdkRow) : PyVal :=
  .obj [("create_user", optStr row.createUser),
        ("last_update_user", optStr row.lastUpdateUser),
        ("locale", optStr row.locale),
        ("savepoint_timestamp", optStr row.savepointTimestamp),
        ("savepoint_creator", optStr row.savepointCreator),
        ("filterScope", row.filterScope.getD PyVal.none)]

/-- A stored `Project` row: its primary key, the external `odk_id`, the
nullable `odk_etag`, and its data dictionary. -/
structure ProjRec where
  id : Nat
  odk_id : String
  odk_etag : Option String
  data : PyDict

/-- The database state touched by the import task: the `Project` table, the
`Organisation` table, and the set of `User` emails. -/
structure AppDB where
  projects : List ProjRec
  orgs : OrgDB
  users : List String

/-- Modelled from the spec: `ProjectDraftSerializer` (its module is not part
of the sources) "validate via a serializer" — abstracted as a function from
the candidate dictionary and the optional existing record to the list of
field names in `serializer.errors` (empty means `is_valid()` is true),
together with the effect of `serializer.save()` on the `Project` table. -/
structure SerializerModel where
  valErrors : PyDict → Option ProjRec → List String
  saveNewF : PyDict → List ProjRec → List ProjRec
  saveUpdateF : ProjRec → PyDict → List ProjRec → List ProjRec

/-- What `serialize_and_save` did, seen from outside the `try` block. -/
inductive SaveAction
  | createdNew (data : PyDict) (ownerEmail : String)
  | updatedExisting (data : PyDict)

/-- The observable outcome of `serialize_and_save`: a save, one of the two
caught-and-logged exception paths, or an exception escaping the task. -/
inductive SaveOutcome
  | saved (a : SaveAction)
  | loggedNoUser
  | loggedInvalid
  | propagated (e : PyError)

/-- `parsed.pop(error, None)` for each error field, in order. -/
def removeKeys (d : PyDict) (ks : List String) : PyDict :=
  ks.foldl (fun acc k => dictPop acc k) d

/-- `parse_odk_data`: run the column parser and attach `odk_etag`, `odk_id`
and `odk_extra_data`; the `Organisation` table may grow as a side effect. -/
def parse_odk_data (row : OdkRow) (odk_etag odk_id : String) (odk_extra_data : PyVal)
    (ils : List IntLink) (orgs : OrgDB) : PyDict × OrgDB :=
  let r := odkColumnsParser row.orderedColumns ils orgs
  (dictSet (dictSet (dictSet r.1 "odk_etag" (.str odk_etag)) "odk_id" (.str odk_id))
    "odk_extra_data" odk_extra_data, r.2)

/-- The save part of `serialize_and_save`: update the existing record, or
look the creating user up by email (raising `ObjectDoesNotExist` when absent,
also for a `None` email) and save a new project in the user's name. -/
def saveStep (sm : SerializerModel) (db : AppDB) (data : PyDict) (existing : Option ProjRec)
    (user_email : Option String) : Except PyError (AppDB × SaveAction) :=
  match existing with
  | some ex => .ok ({ db with projects := sm.saveUpdateF ex data db.projects },
                    .updatedExisting data)
  | Option.none =>
    match user_email with
    | Option.none => .error .objectDoesNotExist
    | some em =>
      if db.users.contains em then
        .ok ({ db with projects := sm.saveNewF data db.projects }, .createdNew data em)
      else .error .objectDoesNotExist

/-- The body of `serialize_and_save`'s `try` block over an already-parsed
dictionary: validate; on failure pop the error fields, build a fresh
serializer over the reduced dictionary and validate once more with
`raise_exception=True`; then save.  The second component lists the
dictionaries that were validated, in order. -/
def serializeParsedBody (sm : SerializerModel) (db : AppDB) (parsed : PyDict)
    (existing : Option ProjRec) (user_email : Option String) :
    Except PyError (AppDB × SaveAction) × List PyDict :=
  let errs := sm.valErrors parsed existing
  if errs = [] then (saveStep sm db parsed existing user_email, [parsed])
  else
    let reduced := removeKeys parsed errs
    if sm.valErrors reduced existing = [] then
      (saveStep sm db reduced existing user_email, [parsed, reduced])
    else (.error .validationError, [parsed, reduced])

/-- The `try`/`except` wrapper of `serialize_and_save`: `ObjectDoesNotExist`
and `ValidationError` are caught and logged (leaving the database as it was);
anything else would escape. -/
def serializeParsed (sm : SerializerModel) (db : AppDB) (parsed : PyDict)
    (existing : Option ProjRec) (user_email : Option String) :
    (AppDB × SaveOutcome) × List PyDict :=
  match serializeParsedBody sm db parsed existing user_email with
  | (.ok r, tr) => ((r.1, .saved r.2), tr)
  | (.error .objectDoesNotExist, tr) => ((db, .loggedNoUser), tr)
  | (.error .validationError, tr) => ((db, .loggedInvalid), tr)
  | (.error e, tr) => ((db, .propagated e), tr)

/-- `serialize_and_save`: parse the row, then validate-and-save as above. -/
def serialize_and_save (sm : SerializerModel) (ils : List IntLink) (db : AppDB)
    (row : OdkRow) (odk_etag odk_id : String) (odk_extra_data : PyVal)
    (existing : Option ProjRec) (user_email : Option String) :
    (AppDB × SaveOutcome) × List PyDict :=
  let pr := parse_odk_data row odk_etag odk_id odk_extra_data ils db.orgs
  serializeParsed sm { db with orgs := pr.2 } pr.1 existing user_email

/-- Which of the four upsert branches `save_or_update_project` took. -/
inductive UpsertResult
  | created (o : SaveOutcome)
  | skippedNoEtag
  | updatedVersion (o : SaveOutcome)
  | skippedSameEtag

/-- `save_or_update_project`: look the project up by `odk_id`; import when
absent, do nothing when the stored `odk_etag` is `None` (overridden by the
UI) or equals the row's etag, update when the etags differ. -/
def save_or_update_project (sm : SerializerModel) (ils : List IntLink) (db : AppDB)
    (row : OdkRow) (user_email : Option String) (odk_etag odk_id : String)
    (odk_extra_data : PyVal) : AppDB × UpsertResult :=
  match db.projects.find? (fun p => p.odk_id == odk_id) with
  | Option.none =>
    let r := serialize_and_save sm ils db row odk_etag odk_id odk_extra_data
      Option.none user_email
    (r.1.1, .created r.1.2)
  | some ex =>
    match ex.odk_etag with
    | Option.none => (db, .skippedNoEtag)
    | some e =>
      if e ≠ odk_etag then
        let r := serialize_and_save sm ils db row odk_etag odk_id odk_extra_data
          (some ex) Option.none
        (r.1.1, .updatedVersion r.1.2)
      else (db, .skippedSameEtag)

/-- What `start_sync` did with one row. -/
inductive RowOutcome
  | skippedIncompleteOrDeleted
  | upserted (r : UpsertResult)

/-- The completeness filter of `start_sync`: `savepointType` (defaulting to
`'INCOMPLETE'`) lower-cased equals `'complete'`, and `deleted` (defaulting to
Python `True`) is `!=` the string `'true'`. -/
def passesFilter (row : OdkRow) : Bool :=
  (sLower (row.savepointType.getD "INCOMPLETE") == "complete") &&
    !(pyEq (row.deleted.getD (PyVal.bool true)) (PyVal.str "true"))

/-- One iteration of the `start_sync` row loop. -/
def processOdkRow (sm : SerializerModel) (ils : List IntLink) (db : AppDB)
    (row : OdkRow) : AppDB × RowOutcome :=
  let odk_etag := uuidParser row.rowETag
  let odk_id := uuidParser row.id
  if passesFilter row then
    let r := save_or_update_project sm ils db row row.createUser odk_etag odk_id
      (odkExtraData row)
    (r.1, .upserted r.2)
  else (db, .skippedIncompleteOrDeleted)

/-- `start_sync`: fold the row loop over the export rows. -/
def start_sync (sm : SerializerModel) (ils : List IntLink) (rows : List OdkRow)
    (db : AppDB) : AppDB × List RowOutcome :=
  rows.foldl (fun acc row =>
    let r := processOdkRow sm ils acc.1 row
    (r.1, acc.2 ++ [r.2])) (db, ([] : List RowOutcome))

/-- An HTTP call made through the `requests` session. -/
inductive HttpEvent
  | post (url : String) (status : Nat)
  | get (url : String) (status : Nat)
deriving DecidableEq

/-- `requests.Response.raise_for_status` raises exactly for 4xx/5xx codes. -/
def isErrorStatus (s : Nat) : Bool := 400 ≤ s && s < 600

/-- The login URL: `urljoin(base_url, '/web-ui/login')`. -/
def loginUrl (base_url : String) : String := base_url ++ "/web-ui/login"

/-- The export URL: `urljoin(base_url, form_url)`. -/
def importUrl (base_url table : String) : String :=
  base_url ++ "/web-ui/tables/" ++ table ++ "/export/JSON/showDeleted/false"

/-- The observable result of one run of the `sync_project_from_odk` task. -/
structure SyncResult where
  events : List HttpEvent
  db : AppDB
  err : Option PyError
  outcomes : List RowOutcome

/-- `sync_project_from_odk`: POST the credentials to the login endpoint and
raise for a failure status; GET the export endpoint and raise likewise; only
then run `start_sync` on the returned rows.  `loginStatus` / `exportStatus`
are the responses the external server would give to each call. -/
def sync_project_from_odk (protocol host table : String) (loginStatus exportStatus : Nat)
    (rows : List OdkRow) (sm : SerializerModel) (ils : List IntLink) (db : AppDB) :
    SyncResult :=
  let base_url := protocol ++ "://" ++ host
  let ev1 := [HttpEvent.post (loginUrl base_url) loginStatus]
  if isErrorStatus loginStatus then ⟨ev1, db, some (.httpError loginStatus), []⟩
  else
    let ev2 := ev1 ++ [HttpEvent.get (importUrl base_url table) exportStatus]
    if isErrorStatus exportStatus then ⟨ev2, db, some (.httpError exportStatus), []⟩
    else
      let r := start_sync sm ils rows db
      ⟨ev2, r.1, Option.none, r.2⟩

/-! ## Notification tasks -/

/-- A `UserProfile` row. -/
structure ProfileRec where
  id : Nat
  email : String
  language : Option String
  name : String
deriving DecidableEq, Repr

/-- Python `profile.language or settings.LANGUAGE_CODE`: `None` and the empty
string are falsy and fall back to the default. -/
def orDefault (l : Option String) (d : String) : String :=
  match l with
  | some s => if s == "" then d else s
  | Option.none => d

/-- A `Donor` row. -/
structure DonorRec where
  id : Nat
  name : String
deriving DecidableEq, Repr

/-- A `DonorCustomQuestion` row. -/
structure DCQRec where
  id : Nat
  donor : Nat
  question : String
deriving DecidableEq, Repr

/-- A `Project` as seen by the reminder tasks: team member ids, age of the
last modification in days, and the donor custom answers reachable through the
`draft`/`data` JSON fields, keyed by (donor id, question id). -/
structure StageProj where
  id : Nat
  team : List Nat
  modifiedDaysAgo : Nat
  draftAnswers : List ((Nat × Nat) × String)
  dataAnswers : List ((Nat × Nat) × String)
deriving DecidableEq, Repr

/-- The value at `{prefix}__donor_custom_answers__{donor}__{question}`. -/
def answerFor (fkp : String) (p : StageProj) (d q : Nat) : Option String :=
  (((if fkp == "draft" then p.draftAnswers else p.dataAnswers).find?
    (fun a => a.1 == (d, q))).map (fun a => a.2))

/-- `exclude_specific_project_stages`: when the UNICEF donor and its `Stage`
question exist, exclude projects whose stage answer icontains one of the
excluded stages; when either lookup raises `DoesNotExist` the `except` arms
fall through and the projects are returned untouched. -/
def exclude_specific_project_stages (donors : List DonorRec) (questions : List DCQRec)
    (projects : List StageProj) (fkp : String) : List StageProj :=
  match donors.find? (fun d => d.name == "UNICEF") with
  | Option.none => projects
  | some unicef =>
    match questions.find? (fun q => q.donor == unicef.id && q.question == "Stage") with
    | Option.none => projects
    | some question =>
      let stages_to_exclude := ["Discontinued", "Scale and Handover"]
      let filtered := projects.filter (fun p => stages_to_exclude.any (fun s =>
        match answerFor fkp p unicef.id question.id with
        | some a => strContains (sLower a) (sLower s)
        | Option.none => false))
      if !filtered.isEmpty then
        projects.filter (fun p => !(filtered.any (fun f => f.id == p.id)))
      else projects

/-- One reminder mail of `project_still_in_draft_notification`. -/
structure DraftMail where
  recipient : String
  language : String
  projects : List Nat
deriving DecidableEq, Repr

/-- The member loop of `project_still_in_draft_notification`: a missing
`UserProfile` is caught (`except ... : pass`) and the loop continues with the
remaining members. -/
def draftNotifyMembers (profiles : List ProfileRec) (projects : List StageProj)
    (defaultLang : String) : List Nat → List DraftMail
  | [] => []
  | m :: rest =>
    match profiles.find? (fun pr => pr.id == m) with
    | Option.none => draftNotifyMembers profiles projects defaultLang rest
    | some prof =>
      { recipient := prof.email, language := orDefault prof.language defaultLang,
        projects := (projects.filter (fun p => p.team.contains m)).map (fun p => p.id) }
        :: draftNotifyMembers profiles projects defaultLang rest

/-- `project_still_in_draft_notification`: drafts older than 31 days, minus
the excluded stages; outside production only the first project is kept; one
mail per team member that still has a profile.  (The Python `set` of members
has no specified order; here the first-occurrence order stands in for it.) -/
def project_still_in_draft_notification (prod : Bool) (donors : List DonorRec)
    (questions : List DCQRec) (projects0 : List StageProj) (profiles : List ProfileRec)
    (defaultLang : String) : List DraftMail :=
  let projects := projects0.filter (fun p => 31 < p.modifiedDaysAgo)
  let projects := exclude_specific_project_stages donors questions projects "draft"
  if projects.isEmpty then []
  else
    let projects := if !prod then (match projects with | p :: _ => [p] | [] => []) else projects
    let members := (projects.foldl (fun acc p => acc ++ p.team) []).dedup
    draftNotifyMembers profiles projects defaultLang members

/-- A `Project` as seen by `send_project_approval_digest`: the country id
inside its `data` JSON and the nullable `approval__approved` flag. -/
structure ApprovalProject where
  id : Nat
  dataCountry : Option Nat
  approvalApproved : Option Bool
deriving DecidableEq, Repr

/-- `Project.objects.filter(data__country=cid, approval__approved__isnull=True)`. -/
def pendingFor (projects : List ApprovalProject) (cid : Nat) : List ApprovalProject :=
  projects.filter (fun p =>
    p.dataCountry == some cid && p.approvalApproved == (Option.none : Option Bool))

/-- A `Country` row with its related users. -/
structure CountryRec where
  id : Nat
  name : String
  project_approval : Bool
  users : List ProfileRec
deriving DecidableEq, Repr

/-- One digest mail: a language group of recipients and the pending projects. -/
structure DigestMail where
  language : Option String
  recipients : List String
  country_name : String
  projects : List Nat
deriving DecidableEq, Repr

/-- Append an email under its language key, `defaultdict(list)` style:
languages keep first-appearance order, emails keep insertion order. -/
def addEmail : List (Option String × List String) → Option String → String →
    List (Option String × List String)
  | [], l, e => [(l, [e])]
  | (l', es) :: rest, l, e =>
    if l' == l then (l', es ++ [e]) :: rest else (l', es) :: addEmail rest l e

/-- The `email_mapping` of `send_project_approval_digest`. -/
def groupByLanguage (users : List ProfileRec) : List (Option String × List String) :=
  users.foldl (fun acc p => addEmail acc p.language p.email) []

/-- The mails sent for one country: one per language group. -/
def emailsForCountry (c : CountryRec) (projs : List ApprovalProject) : List DigestMail :=
  (groupByLanguage c.users).map (fun g =>
    { language := g.1, recipients := g.2, country_name := c.name,
      projects := (pendingFor projs c.id).map (fun p => p.id) })

/-- The country loop of `send_project_approval_digest`.  When an
approval-enabled country has no pending projects the body executes `return`,
ending the whole task — not `continue`. -/
def digestLoop (projs : List ApprovalProject) : List CountryRec → List DigestMail
  | [] => []
  | c :: rest =>
    if c.project_approval then
      if (pendingFor projs c.id).isEmpty then []
      else emailsForCountry c projs ++ digestLoop projs rest
    else digestLoop projs rest

/-- `send_project_approval_digest` over the countries that have users
(`Country.objects.exclude(users=None)`). -/
def send_project_approval_digest (countries : List CountryRec)
    (projs : List ApprovalProject) : List DigestMail :=
  digestLoop projs (countries.filter (fun c => !c.users.isEmpty))

/-- A `ReviewScore` row. -/
structure ReviewScore where
  id : Nat
  reviewer : Nat
  complete : Bool
  modifiedDaysAgo : Nat
deriving DecidableEq, Repr

/-- One reminder mail of `project_review_requested_notification`. -/
structure ReviewMail where
  recipient : String
  language : String
  reviewId : Nat
deriving DecidableEq, Repr

/-- The reviewer loop of `project_review_requested_notification`
(`for review in reviews`): a missing `UserProfile` for the reviewer is caught
(`except UserProfile.DoesNotExist: pass`) and the loop continues with the
remaining reviews. -/
def reviewNotifyReviewers (profiles : List ProfileRec) (defaultLang : String) :
    List ReviewScore → List ReviewMail
  | [] => []
  | r :: rest =>
    match profiles.find? (fun pr => pr.id == r.reviewer) with
    | Option.none => reviewNotifyReviewers profiles defaultLang rest
    | some prof =>
      { recipient := prof.email, language := orDefault prof.language defaultLang,
        reviewId := r.id } :: reviewNotifyReviewers profiles defaultLang rest

/-- `project_review_requested_notification`: the local variable `reviews` is
assigned only under `if not settings.EMAIL_SENDING_PRODUCTION`; in production
the `for review in reviews` loop reads an unbound name and raises
`NameError` before any mail is sent. -/
def project_review_requested_notification (prod : Bool) (reviews : List ReviewScore)
    (thresholdDays : Nat) (profiles : List ProfileRec) (defaultLang : String) :
    List ReviewMail × Option PyError :=
  let incomplete_reviews := reviews.filter (fun r =>
    !r.complete && thresholdDays < r.modifiedDaysAgo)
  if incomplete_reviews.isEmpty then ([], Option.none)
  else
    let reviewsVar : Option (List ReviewScore) :=
      if !prod then
        some (match incomplete_reviews.head? with
          | some first => reviews.filter (fun r => r.id == first.id)
          | Option.none => [])
      else Option.none
    match reviewsVar with
    | Option.none => ([], some .nameError)
    | some rs => (reviewNotifyReviewers profiles defaultLang rs, Option.none)

/-! ## The migration files -/

/-- `on_delete` rules appearing in the embedded migrations. -/
inductive DeletionRule
  | cascade
  | protect
  | setNull
deriving DecidableEq

/-- The field declarations appearing in the two migration files. -/
inductive MigField
  | jsonField
  | charField (maxLength : Nat) (unique : Bool)
  | autoField
  | dateTimeField
  | positiveIntegerField (blank : Bool)
  | foreignKey (target : String) (onDelete : DeletionRule) (relatedName : String)
deriving DecidableEq

/-- The migration operations appearing in the two migration files. -/
inductive MigOperation
  | createModel (name : String) (fields : List (String × MigField))
  | removeField (model field : String)
  | addField (model field : String) (f : MigField)
  | alterField (model field : String) (f : MigField)

/-- A migration script: its app, name, dependencies and operations. -/
structure Migration where
  app : String
  name : String
  dependencies : List (String × String)
  operations : List MigOperation

/-- `country/migrations/0002_auto_20160422_0908.py`. -/
def country_0002 : Migration :=
  { app := "country", name := "0002_auto_20160422_0908",
    dependencies := [("country", "0001_initial")],
    operations := [
      .alterField "country" "geodata" .jsonField,
      .alterField "country" "name" (.charField 255 true)] }

/-- `project/migrations/0005_auto_20160426_0827.py`. -/
def project_0005 : Migration :=
  { app := "project", name := "0005_auto_20160426_0827",
    dependencies := [("project", "0004_auto_20160406_1220")],
    operations := [
      .createModel "Coverage" [
        ("id", .autoField),
        ("created", .dateTimeField),
        ("modified", .dateTimeField),
        ("district", .charField 255 false),
        ("clients", .positiveIntegerField false),
        ("health_workers", .positiveIntegerField false),
        ("facilities", .positiveIntegerField false),
        ("version", .positiveIntegerField true)],
      .removeField "project" "clients",
      .removeField "project" "facilities",
      .removeField "project" "health_workers",
      .addField "coverage" "project" (.foreignKey "project.Project" .cascade "coverage")] }

/-- The `on_delete` rule a migration declares for a foreign-key field. -/
def fkRuleOf (m : Migration) (model field : String) : Option DeletionRule :=
  m.operations.findSome? (fun op =>
    match op with
    | .addField mo f (.foreignKey _ r _) =>
      if mo == model && f == field then some r else Option.none
    | _ => Option.none)

/-- The rule the database enforces for `Coverage.project`, read off the
migration — there is no procedural enforcement anywhere in the code. -/
def coverageProjectRule : DeletionRule := (fkRuleOf project_0005 "coverage" "project").getD .protect

/-- A concrete relational state for the declared schema: project ids and
coverage rows (id, project fk). -/
structure RelDB where
  projects : List Nat
  coverages : List (Nat × Nat)

/-- Deleting a project under the declared schema: the relational database
applies the migration's `on_delete` rule to the referencing coverage rows. -/
def deleteProject (db : RelDB) (pid : Nat) : RelDB :=
  { projects := db.projects.filter (fun p => p != pid),
    coverages :=
      match coverageProjectRule with
      | .cascade => db.coverages.filter (fun c => c.2 != pid)
      | _ => db.coverages }

/-! ## Concrete fixtures for witness instantiations -/

/-- A serializer model that accepts every dictionary. -/
def smTriv : SerializerModel :=
  { valErrors := fun _ _ => [],
    saveNewF := fun d ps =>
      ps ++ [{ id := ps.length, odk_id := "", odk_etag := Option.none, data := d }],
    saveUpdateF := fun ex d ps =>
      ps.map (fun p => if p.id == ex.id then { p with data := d } else p) }

/-- A serializer model that keeps reporting the same error field. -/
def smReject : SerializerModel :=
  { valErrors := fun _ _ => ["odk_id"],
    saveNewF := fun _ ps => ps,
    saveUpdateF := fun _ _ ps => ps }

/-- A stored project with etag `e1` under external id `i1`. -/
def projEx : ProjRec := { id := 0, odk_id := "i1", odk_etag := some "e1", data := [] }

/-- A small database: one project, no organisations, one known user email. -/
def dbEx : AppDB := { projects := [projEx], orgs := [], users := ["alice@example.org"] }

/-- A complete, `deleted = True` (the Python boolean) ODK row. -/
def rowComplete : OdkRow :=
  { rowETag := "uuid:e1", id := "uuid:i1", savepointType := some "COMPLETE",
    deleted := some (PyVal.bool true), createUser := some "alice@example.org",
    lastUpdateUser := Option.none, locale := Option.none,
    savepointTimestamp := Option.none, savepointCreator := Option.none,
    filterScope := Option.none, orderedColumns := [] }

/-- An approval-enabled country with a user and no pending projects. -/
def countryA : CountryRec :=
  { id := 1, name := "Alandia", project_approval := true,
    users := [{ id := 1, email := "alice@example.org", language := some "en",
                name := "alice" }] }

/-- An approval-enabled country with a user and one pending project. -/
def countryB : CountryRec :=
  { id := 2, name := "Borduria", project_approval := true,
    users := [{ id := 2, email := "bob@example.org", language := some "fr",
                name := "bob" }] }

/-- A project of `countryB` still awaiting approval. -/
def pendingProjB : ApprovalProject :=
  { id := 10, dataCountry := some 2, approvalApproved := Option.none }

/-! ## Claim theorems -/

/-- Helper: the row loop skips a row exactly when the completeness filter
rejects it. -/
theorem processOdkRow_skipped_iff (sm : SerializerModel) (ils : List IntLink)
    (db : AppDB) (row : OdkRow) :
    (processOdkRow sm ils db row).2 = RowOutcome.skippedIncompleteOrDeleted ↔
      passesFilter row = false := by
  unfold processOdkRow
  cases hp : passesFilter row <;> simp [hp]

/-- C9: `start_sync` imports a row iff its `savepointType` (defaulting to
`'INCOMPLETE'`) lower-cases to `'complete'` and its `deleted` field
(defaulting to Python `True`) is not equal to the string `'true'`; in
particular a row whose `deleted` field is the boolean `True` is still
imported, because only the exact string `'true'` causes a skip. -/
theorem start_sync_import_condition (sm : SerializerModel) (ils : List IntLink)
    (db : AppDB) (row : OdkRow) :
    ((processOdkRow sm ils db row).2 = RowOutcome.skippedIncompleteOrDeleted ↔
      ¬ (sLower (row.savepointType.getD "INCOMPLETE") = "complete" ∧
         pyEq (row.deleted.getD (PyVal.bool true)) (PyVal.str "true") = false)) ∧
    (row.deleted = some (PyVal.bool true) →
      sLower (row.savepointType.getD "INCOMPLETE") = "complete" →
      (processOdkRow sm ils db row).2 ≠ RowOutcome.skippedIncompleteOrDeleted) := by
  have hiff : passesFilter row = true ↔
      (sLower (row.savepointType.getD "INCOMPLETE") = "complete" ∧
       pyEq (row.deleted.getD (PyVal.bool true)) (PyVal.str "true") = false) := by
    simp [passesFilter, Bool.and_eq_true, Bool.not_eq_true']
  constructor
  · rw [processOdkRow_skipped_iff, ← hiff]
    simp
  · intro h1 h2
    rw [Ne, processOdkRow_skipped_iff]
    have : passesFilter row = true := hiff.mpr ⟨h2, by simp [h1, pyEq]⟩
    simp [this]

/-- C9 witness: a concrete complete row with `deleted = True` is imported. -/
theorem start_sync_import_condition_witness :
    (processOdkRow smTriv [] dbEx rowComplete).2 ≠ RowOutcome.skippedIncompleteOrDeleted :=
  (start_sync_import_condition smTriv [] dbEx rowComplete).2 rfl (by decide)

/-- C8: in production (`EMAIL_SENDING_PRODUCTION` true), as soon as at least
one incomplete `ReviewScore` is older than the review-notification threshold,
`project_review_requested_notification` raises `NameError` before sending any
mail: the `reviews` variable is assigned only in the non-production branch. -/
theorem review_notification_production_name_error (reviews : List ReviewScore)
    (thresholdDays : Nat) (profiles : List ProfileRec) (defaultLang : String)
    (h : reviews.filter (fun r => !r.complete && thresholdDays < r.modifiedDaysAgo) ≠ []) :
    project_review_requested_notification true reviews thresholdDays profiles defaultLang
      = ([], some PyError.nameError) := by
  unfold project_review_requested_notification
  simp [List.isEmpty_iff, h]

/-- C8 witness: one 40-day-old incomplete review, threshold 30 days. -/
theorem review_notification_production_name_error_witness :
    project_review_requested_notification true
      [{ id := 1, reviewer := 1, complete := false, modifiedDaysAgo := 40 }] 30 [] "en"
      = ([], some PyError.nameError) :=
  review_notification_production_name_error _ _ _ _ (by decide)

/-- C7: the schema invariants are declared in the migration operations:
`country/0002` alters `Country.name` to a unique `CharField` of max length
255, and `project/0005` adds `Coverage.project` as a cascade-deleting foreign
key to `Project`, so that under the declared rule deleting a project leaves
no coverage row referencing it. -/
theorem migrations_declare_invariants :
    MigOperation.alterField "country" "name" (.charField 255 true) ∈ country_0002.operations ∧
    MigOperation.addField "coverage" "project"
      (.foreignKey "project.Project" DeletionRule.cascade "coverage") ∈ project_0005.operations ∧
    coverageProjectRule = DeletionRule.cascade ∧
    ∀ (db : RelDB) (pid : Nat),
      ((deleteProject db pid).coverages.filter (fun c => c.2 == pid)) = [] := by
  refine ⟨by simp [country_0002], by simp [project_0005], rfl, ?_⟩
  intro db pid
  have key : ∀ (l : List (Nat × Nat)),
      ((l.filter (fun c => c.2 != pid)).filter (fun c => c.2 == pid)) = [] := by
    intro l
    rw [List.filter_filter]
    apply List.filter_eq_nil_iff.mpr
    intro a ha
    simp
  simp only [deleteProject, coverageProjectRule, fkRuleOf, project_0005]
  exact key db.coverages

/-- C4: when the login POST or the export GET answers with a 4xx/5xx status,
`raise_for_status` raises and the exception leaves `sync_project_from_odk`
uncaught: the task reports an error, the database is unchanged, and no row
outcome was produced. -/
theorem sync_http_failure_propagates (protocol host table : String)
    (loginStatus exportStatus : Nat) (rows : List OdkRow) (sm : SerializerModel)
    (ils : List IntLink) (db : AppDB)
    (h : isErrorStatus loginStatus = true ∨ isErrorStatus exportStatus = true) :
    (sync_project_from_odk protocol host table loginStatus exportStatus rows sm ils db).err.isSome
        = true ∧
    (sync_project_from_odk protocol host table loginStatus exportStatus rows sm ils db).db = db ∧
    (sync_project_from_odk protocol host table loginStatus exportStatus rows sm ils db).outcomes
        = [] := by
  unfold sync_project_from_odk
  rcases h with h | h
  · simp [h]
  · by_cases h2 : isErrorStatus loginStatus <;> simp [h, h2]

/-- C4 witness: a 403 login response. -/
theorem sync_http_failure_propagates_witness :
    (sync_project_from_odk "https" "odk.example.org" "tiip" 403 200 [] smTriv [] dbEx).err.isSome
        = true ∧
    (sync_project_from_odk "https" "odk.example.org" "tiip" 403 200 [] smTriv [] dbEx).db = dbEx ∧
    (sync_project_from_odk "https" "odk.example.org" "tiip" 403 200 [] smTriv [] dbEx).outcomes
        = [] :=
  sync_http_failure_propagates "https" "odk.example.org" "tiip" 403 200 [] smTriv [] dbEx
    (Or.inl (by decide))

/-- C6: whenever the export endpoint was fetched, the login POST stands
strictly before it in the session's event list and the login response was a
success status — the task never reaches the export GET otherwise. -/
theorem sync_login_before_export (protocol host table : String)
    (loginStatus exportStatus : Nat) (rows : List OdkRow) (sm : SerializerModel)
    (ils : List IntLink) (db : AppDB) (st : Nat)
    (h : HttpEvent.get (importUrl (protocol ++ "://" ++ host) table) st ∈
      (sync_project_from_odk protocol host table loginStatus exportStatus rows sm ils db).events) :
    (sync_project_from_odk protocol host table loginStatus exportStatus rows sm ils db).events.take 1
      = [HttpEvent.post (loginUrl (protocol ++ "://" ++ host)) loginStatus] ∧
    isErrorStatus loginStatus = false := by
  unfold sync_project_from_odk at h ⊢
  by_cases h1 : isErrorStatus loginStatus
  · simp [h1] at h
  · by_cases h2 : isErrorStatus exportStatus <;> simp [h1, h2]

/-- The `id` entries of the interoperability-link dictionaries, in order. -/
def linkIds (links : List PyDict) : List (Option PyVal) := links.map (fun d => dictGet d "id")

/-- Helper: mutating the first matching dictionary with an `id`-preserving
update keeps every dictionary's `id` and the list's length and order. -/
theorem linkIds_updateFirstByKeyVal (key : String) (target : PyVal) (f : PyDict → PyDict)
    (hf : ∀ d, dictGet (f d) "id" = dictGet d "id") (links : List PyDict) :
    ∀ (found : Bool) (links' : List PyDict),
      updateFirstByKeyVal links key target f = .ok (found, links') →
      linkIds links' = linkIds links := by
  induction links with
  | nil =>
    intro found links' h
    unfold updateFirstByKeyVal at h
    cases h
    rfl
  | cons d rest ih =>
    intro found links' h
    unfold updateFirstByKeyVal at h
    rcases hg : dictGet d key with _ | v
    · simp only [hg] at h
      exact Except.noConfusion h
    · simp only [hg] at h
      by_cases hp : pyEq v target = true
      · rw [if_pos hp] at h
        cases h
        simp only [linkIds, List.map_cons, hf d]
      · rw [if_neg hp] at h
        rcases hrec : updateFirstByKeyVal rest key target f with e | ⟨found2, rest2⟩
        · simp only [hrec] at h
          exact Except.noConfusion h
        · simp only [hrec] at h
          cases h
          have htl := ih _ _ hrec
          simp only [linkIds, List.map_cons] at htl ⊢
          rw [htl]

/-- Helper: `rawUpdate` never touches the link collection. -/
theorem links_rawUpdate (st : ParseState) (field : String) (value : PyVal) (st' : ParseState)
    (h : rawUpdate st field value = .ok st') : st'.links = st.links := by
  unfold rawUpdate at h
  cases h
  rfl

/-- Helper: `nldUpdate` never touches the link collection. -/
theorem links_nldUpdate (st : ParseState) (field : String) (value : PyVal) (st' : ParseState)
    (h : nldUpdate st field value = .ok st') : st'.links = st.links := by
  unfold nldUpdate at h
  rcases he : escaped_int_converter value with e | n
  · simp only [he] at h
    exact Except.noConfusion h
  · simp only [he] at h
    rcases hn : (dictGet st.project "national_level_deployment").getD nld_default
      with s | i | b | l | o | _
    all_goals simp only [hn] at h
    all_goals first | (cases h; rfl) | exact Except.noConfusion h

/-- Helper: `intListUpdate` never touches the link collection. -/
theorem links_intListUpdate (st : ParseState) (field : String) (value : PyVal)
    (st' : ParseState) (h : intListUpdate st field value = .ok st') : st'.links = st.links := by
  unfold intListUpdate at h
  rcases hl : listParser value with e | l
  · simp only [hl] at h
    exact Except.noConfusion h
  · simp only [hl] at h
    rcases hm : l.mapM escaped_int_converter with e2 | ns
    · simp only [hm] at h
      exact Except.noConfusion h
    · simp only [hm] at h
      cases h
      rfl

/-- Helper: `strListUpdate` never touches the link collection. -/
theorem links_strListUpdate (st : ParseState) (field : String) (value : PyVal)
    (st' : ParseState) (h : strListUpdate st field value = .ok st') : st'.links = st.links := by
  unfold strListUpdate at h
  rcases hl : string_to_list value with e | l
  · simp only [hl] at h
    exact Except.noConfusion h
  · simp only [hl] at h
    cases h
    rfl

/-- Helper: a successful `first_level_converter` call preserves every link
dictionary's `id`, the length and the order of the collection — only the
`interoperability_link_` branch touches it, through an `id`-preserving
in-place update. -/
theorem linkIds_first_level (value : PyVal) (column_type : String) (st st' : ParseState)
    (h : first_level_converter value column_type st = .ok st') :
    linkIds st'.links = linkIds st.links := by
  unfold first_level_converter at h
  by_cases c1 : (column_type == "name") = true
  · rw [if_pos c1] at h
    rw [links_rawUpdate _ _ _ _ h]
  rw [if_neg c1] at h
  by_cases c2 : (column_type == "organization") = true
  · rw [if_pos c2] at h
    rcases he : escaped_int_converter value with e | n
    · simp only [he] at h
      cases e
      all_goals try exact Except.noConfusion h
      rcases value with s | _ | _ | _ | _ | _
      all_goals first | (cases h; rfl) | exact Except.noConfusion h
    · simp only [he] at h
      cases h
      rfl
  rw [if_neg c2] at h
  by_cases c3 : (column_type == "country") = true
  · rw [if_pos c3] at h
    rcases he : escaped_int_converter value with e | n
    all_goals simp only [he] at h
    all_goals first | (cases h; rfl) | exact Except.noConfusion h
  rw [if_neg c3] at h
  by_cases c4 : strContains column_type "platforms" = true
  · rw [if_pos c4] at h
    rcases he : escaped_int_converter value with e | n
    · simp only [he] at h
      exact Except.noConfusion h
    · simp only [he] at h
      rcases hp : (dictGet st.project "platforms").getD (PyVal.list []) with s | i | b | l | o | _
      all_goals simp only [hp] at h
      all_goals first | (cases h; rfl) | exact Except.noConfusion h
  rw [if_neg c4] at h
  by_cases c5 : (column_type == "clients") = true
  · rw [if_pos c5] at h
    rw [links_nldUpdate _ _ _ _ h]
  rw [if_neg c5] at h
  by_cases c6 : (column_type == "facilities") = true
  · rw [if_pos c6] at h
    rw [links_nldUpdate _ _ _ _ h]
  rw [if_neg c6] at h
  by_cases c7 : (column_type == "health_workers") = true
  · rw [if_pos c7] at h
    rw [links_nldUpdate _ _ _ _ h]
  rw [if_neg c7] at h
  by_cases c8 : (column_type == "contact_email") = true
  · rw [if_pos c8] at h
    rw [links_rawUpdate _ _ _ _ h]
  rw [if_neg c8] at h
  by_cases c9 : (column_type == "contact_name") = true
  · rw [if_pos c9] at h
    rw [links_rawUpdate _ _ _ _ h]
  rw [if_neg c9] at h
  by_cases c10 : (column_type == "donors") = true
  · rw [if_pos c10] at h
    rw [links_strListUpdate _ _ _ _ h]
  rw [if_neg c10] at h
  by_cases c11 : (column_type == "end_date") = true
  · rw [if_pos c11] at h
    rw [links_rawUpdate _ _ _ _ h]
  rw [if_neg c11] at h
  by_cases c12 : (column_type == "geographic_scope") = true
  · rw [if_pos c12] at h
    rw [links_rawUpdate _ _ _ _ h]
  rw [if_neg c12] at h
  by_cases c13 : (column_type == "government_investor") = true
  · rw [if_pos c13] at h
    rcases he : escaped_int_converter value with e | n
    all_goals simp only [he] at h
    all_goals first | (cases h; rfl) | exact Except.noConfusion h
  rw [if_neg c13] at h
  by_cases c14 : (column_type == "health_focus_areas") = true
  · rw [if_pos c14] at h
    rw [links_intListUpdate _ _ _ _ h]
  rw [if_neg c14] at h
  by_cases c15 : (column_type == "health_information_systems") = true
  · rw [if_pos c15] at h
    rw [links_intListUpdate _ _ _ _ h]
  rw [if_neg c15] at h
  by_cases c16 : (column_type == "health_system_challenges") = true
  · rw [if_pos c16] at h
    rw [links_intListUpdate _ _ _ _ h]
  rw [if_neg c16] at h
  by_cases c17 : (column_type == "implementation_dates") = true
  · rw [if_pos c17] at h
    rw [links_rawUpdate _ _ _ _ h]
  rw [if_neg c17] at h
  by_cases c18 : (column_type == "implementation_overview") = true
  · rw [if_pos c18] at h
    rw [links_rawUpdate _ _ _ _ h]
  rw [if_neg c18] at h
  by_cases c19 : (column_type == "implementing_partners") = true
  · rw [if_pos c19] at h
    rw [links_strListUpdate _ _ _ _ h]
  rw [if_neg c19] at h
  by_cases c20 : (column_type == "licenses") = true
  · rw [if_pos c20] at h
    rw [links_intListUpdate _ _ _ _ h]
  rw [if_neg c20] at h
  by_cases c21 : (column_type == "mobile_application") = true
  · rw [if_pos c21] at h
    rw [links_rawUpdate _ _ _ _ h]
  rw [if_neg c21] at h
  by_cases c22 : (column_type == "repository") = true
  · rw [if_pos c22] at h
    rw [links_rawUpdate _ _ _ _ h]
  rw [if_neg c22] at h
  by_cases c23 : (column_type == "start_date") = true
  · rw [if_pos c23] at h
    rw [links_rawUpdate _ _ _ _ h]
  rw [if_neg c23] at h
  by_cases c24 : (column_type == "wiki") = true
  · rw [if_pos c24] at h
    rw [links_rawUpdate _ _ _ _ h]
  rw [if_neg c24] at h
  by_cases c25 : (column_type == "interoperability_standards") = true
  · rw [if_pos c25] at h
    rw [links_intListUpdate _ _ _ _ h]
  rw [if_neg c25] at h
  by_cases c26 : (strContains column_type "interoperability_link_" &&
      !strContains column_type "_url") = true
  · rw [if_pos c26] at h
    rcases he : escaped_int_converter value with e | n
    · simp only [he] at h
      cases e
      all_goals first | (cases h; rfl) | exact Except.noConfusion h
    · simp only [he] at h
      by_cases hz : (n == 0) = true
      · rw [if_pos hz] at h
        cases h
        rfl
      · rw [if_neg hz] at h
        rcases hu : updateFirstByKeyVal st.links "id" (PyVal.int n)
            (fun d => dictSet (dictSet d "selected" (PyVal.bool true)) "odk_name"
              (PyVal.str (column_type ++ "_url"))) with e2 | fl
        · simp only [hu] at h
          exact Except.noConfusion h
        · obtain ⟨found, links2⟩ := fl
          simp only [hu] at h
          cases found
          · exact Except.noConfusion h
          · cases h
            exact linkIds_updateFirstByKeyVal _ _ _
              (fun d => by rw [dictGet_dictSet_ne _ _ _ _ (by decide),
                              dictGet_dictSet_ne _ _ _ _ (by decide)]) _ _ _ hu
  rw [if_neg c26] at h
  cases h
  rfl

/-- Helper: a successful `second_level_converter` call likewise preserves the
link dictionaries' `id`s, length and order. -/
theorem linkIds_second_level (value : PyVal) (column_type : String) (st : ParseState)
    (dhi : Nat) (st' : ParseState) (dhi' : Nat)
    (h : second_level_converter value column_type st dhi = .ok (st', dhi')) :
    linkIds st'.links = linkIds st.links := by
  unfold second_level_converter at h
  by_cases c1 : strContains column_type "dhi" = true
  · rw [if_pos c1] at h
    rcases hp : dictGet st.project "platforms" with _ | pv
    · simp only [hp] at h
      exact Except.noConfusion h
    · simp only [hp] at h
      rcases pv with s | i | b | ps | o | _
      all_goals try exact Except.noConfusion h
      rcases hg : ps.get? dhi with _ | platform
      · simp only [hg] at h
        exact Except.noConfusion h
      · simp only [hg] at h
        by_cases ht : pyTruthy platform = true
        · rw [if_pos ht] at h
          rcases hl : listParser value with e | l
          · simp only [hl] at h
            exact Except.noConfusion h
          · simp only [hl] at h
            rcases hm : l.mapM escaped_int_converter with e2 | ns
            · simp only [hm] at h
              exact Except.noConfusion h
            · simp only [hm] at h
              rcases platform with s2 | i2 | b2 | l2 | d2 | _
              all_goals first | (cases h; rfl) | exact Except.noConfusion h
        · rw [if_neg ht] at h
          cases h
          rfl
  rw [if_neg c1] at h
  by_cases c2 : (strContains column_type "interoperability_link_" &&
      strContains column_type "_url") = true
  · rw [if_pos c2] at h
    rcases hfk : findFirstByKeyVal st.links "odk_name" (PyVal.str column_type) with e | od
    · simp only [hfk] at h
      exact Except.noConfusion h
    · simp only [hfk] at h
      rcases od with _ | d0
      · cases h
        rfl
      · rcases hs : asString value with _ | s2
        · simp only [hs] at h
          exact Except.noConfusion h
        · simp only [hs] at h
          rcases hu : updateFirstByKeyVal st.links "odk_name" (PyVal.str column_type)
              (fun d => dictSet d "link" (PyVal.str (sLower s2))) with e2 | fl
          · simp only [hu] at h
            exact Except.noConfusion h
          · obtain ⟨found, links2⟩ := fl
            simp only [hu] at h
            cases h
            exact linkIds_updateFirstByKeyVal _ _ _
              (fun d => by rw [dictGet_dictSet_ne _ _ _ _ (by decide)]) _ _ _ hu
  rw [if_neg c2] at h
  cases h
  rfl

/-- Helper: the whole first pass preserves the link `id`s. -/
theorem linkIds_runFirstPass (columns : List PyDict) : ∀ st : ParseState,
    linkIds (runFirstPass columns st).links = linkIds st.links := by
  induction columns with
  | nil => intro st; rfl
  | cons col rest ih =>
    intro st
    simp only [runFirstPass]
    refine (ih _).trans ?_
    split
    · split
      · split
        · rename_i st2 heq
          exact linkIds_first_level _ _ _ _ heq
        · rfl
      · rfl
    · rfl

/-- Helper: the whole second pass preserves the link `id`s. -/
theorem linkIds_runSecondPass (columns : List PyDict) : ∀ (st : ParseState) (dhi : Nat),
    linkIds (runSecondPass columns st dhi).links = linkIds st.links := by
  induction columns with
  | nil => intro st dhi; rfl
  | cons col rest ih =>
    intro st dhi
    simp only [runSecondPass]
    refine (ih _ _).trans ?_
    split
    · split
      · split
        · rename_i r heq
          obtain ⟨st2, dhi2⟩ := r
          exact linkIds_second_level _ _ _ _ _ _ heq
        · rfl
      · rfl
    · rfl

/-- Helper: the initial collection holds exactly the links' ids, in order. -/
theorem linkIds_init (ils : List IntLink) :
    linkIds (initIntLinkCollection ils) = ils.map (fun il => some (PyVal.int il.id)) := by
  unfold linkIds initIntLinkCollection
  rw [List.map_map]
  rfl

/-- Helper: popping `odk_name` from every dictionary keeps the `id`s. -/
theorem linkIds_popOdkName (links : List PyDict) :
    linkIds (links.map (fun d => dictPop d "odk_name")) = linkIds links := by
  unfold linkIds
  rw [List.map_map]
  exact List.map_congr_left (fun d _ => dictGet_dictPop_ne d "odk_name" "id" (by decide))

/-- Helper: after the pop, no dictionary has an `odk_name` key. -/
theorem popOdkName_hasKey (links : List PyDict) :
    ∀ d ∈ links.map (fun d => dictPop d "odk_name"), hasKey d "odk_name" = false := by
  intro d hd
  rcases List.mem_map.mp hd with ⟨d0, _, rfl⟩
  exact hasKey_dictPop d0 "odk_name"

/-- C10: for every column list and every list of interoperability links, the
parsed project dictionary holds `interoperability_links`: a list with exactly
one dictionary per link, in the links' order, each carrying that link's `id`,
and none carrying an `odk_name` key. -/
theorem odk_columns_parser_interoperability_links (columns : List PyDict)
    (ils : List IntLink) (orgs : OrgDB) :
    ∃ entries : List PyDict,
      dictGet (odkColumnsParser columns ils orgs).1 "interoperability_links"
        = some (.list (entries.map PyVal.obj)) ∧
      entries.map (fun d => dictGet d "id") = ils.map (fun il => some (PyVal.int il.id)) ∧
      ∀ d ∈ entries, hasKey d "odk_name" = false := by
  unfold odkColumnsParser
  refine ⟨(runSecondPass columns
      (runFirstPass columns ⟨[], initIntLinkCollection ils, orgs⟩) 0).links.map
      (fun d => dictPop d "odk_name"), ?_, ?_, ?_⟩
  · exact dictGet_dictSet_self _ _ _
  · show linkIds _ = _
    rw [linkIds_popOdkName, linkIds_runSecondPass, linkIds_runFirstPass, linkIds_init]
  · exact popOdkName_hasKey _

/-- C10 witness: one link with id 7 and no columns. -/
theorem odk_columns_parser_interoperability_links_witness :
    ∃ entries : List PyDict,
      dictGet (odkColumnsParser [] [⟨7⟩] []).1 "interoperability_links"
        = some (.list (entries.map PyVal.obj)) ∧
      entries.map (fun d => dictGet d "id") = ([⟨7⟩] : List IntLink).map (fun il => some (PyVal.int il.id)) ∧
      ∀ d ∈ entries, hasKey d "odk_name" = false :=
  odk_columns_parser_interoperability_links [] [⟨7⟩] []

/-- Helper: the validation trace is the same before and after the
`try`/`except` wrapper. -/
theorem serializeParsed_snd (sm : SerializerModel) (db : AppDB) (parsed : PyDict)
    (existing : Option ProjRec) (user_email : Option String) :
    (serializeParsed sm db parsed existing user_email).2
      = (serializeParsedBody sm db parsed existing user_email).2 := by
  unfold serializeParsed
  rcases hb : serializeParsedBody sm db parsed existing user_email with ⟨res, tr⟩
  cases res with
  | ok r => rfl
  | error e => cases e <;> rfl

/-- Helper: a `ValidationError` escaping the body is caught, leaving the
database untouched and the outcome logged. -/
theorem serializeParsed_invalid (sm : SerializerModel) (db : AppDB) (parsed : PyDict)
    (existing : Option ProjRec) (user_email : Option String)
    (hb : (serializeParsedBody sm db parsed existing user_email).1
      = .error PyError.validationError) :
    (serializeParsed sm db parsed existing user_email).1 = (db, SaveOutcome.loggedInvalid) := by
  unfold serializeParsed
  rcases hbb : serializeParsedBody sm db parsed existing user_email with ⟨res, tr⟩
  rw [hbb] at hb
  simp at hb
  rw [hb]

/-- Helper: an `ObjectDoesNotExist` escaping the body is caught, leaving the
database untouched and the outcome logged. -/
theorem serializeParsed_noUser (sm : SerializerModel) (db : AppDB) (parsed : PyDict)
    (existing : Option ProjRec) (user_email : Option String)
    (hb : (serializeParsedBody sm db parsed existing user_email).1
      = .error PyError.objectDoesNotExist) :
    (serializeParsed sm db parsed existing user_email).1 = (db, SaveOutcome.loggedNoUser) := by
  unfold serializeParsed
  rcases hbb : serializeParsedBody sm db parsed existing user_email with ⟨res, tr⟩
  rw [hbb] at hb
  simp at hb
  rw [hb]

/-- Helper: when the first validation fails, exactly the two dictionaries
(original, then reduced) were validated. -/
theorem serializeParsedBody_trace (sm : SerializerModel) (db : AppDB) (parsed : PyDict)
    (existing : Option ProjRec) (user_email : Option String)
    (h1 : sm.valErrors parsed existing ≠ []) :
    (serializeParsedBody sm db parsed existing user_email).2
      = [parsed, removeKeys parsed (sm.valErrors parsed existing)] := by
  unfold serializeParsedBody
  rw [if_neg h1]
  by_cases h2 : sm.valErrors (removeKeys parsed (sm.valErrors parsed existing)) existing = []
  · rw [if_pos h2]
  · rw [if_neg h2]

/-- Helper: when both validations fail the body raises `ValidationError`. -/
theorem serializeParsedBody_second_failure (sm : SerializerModel) (db : AppDB)
    (parsed : PyDict) (existing : Option ProjRec) (user_email : Option String)
    (h1 : sm.valErrors parsed existing ≠ [])
    (h2 : sm.valErrors (removeKeys parsed (sm.valErrors parsed existing)) existing ≠ []) :
    serializeParsedBody sm db parsed existing user_email
      = (.error PyError.validationError,
         [parsed, removeKeys parsed (sm.valErrors parsed existing)]) := by
  unfold serializeParsedBody
  rw [if_neg h1, if_neg h2]

/-- C2: when the serializer reports the parsed dictionary invalid,
`serialize_and_save` pops exactly the error fields from it, validates exactly
once more — the trace of validated dictionaries is precisely the original
followed by the reduced one — and when the second validation also fails, the
`ValidationError` is caught and logged (`loggedInvalid`, not `propagated`)
and the `Project` table is unchanged. -/
theorem serialize_and_save_drop_retry_catch (sm : SerializerModel) (ils : List IntLink)
    (db : AppDB) (row : OdkRow) (odk_etag odk_id : String) (extra : PyVal)
    (existing : Option ProjRec) (user_email : Option String)
    (h1 : sm.valErrors (parse_odk_data row odk_etag odk_id extra ils db.orgs).1 existing ≠ []) :
    (serialize_and_save sm ils db row odk_etag odk_id extra existing user_email).2
      = [(parse_odk_data row odk_etag odk_id extra ils db.orgs).1,
         removeKeys (parse_odk_data row odk_etag odk_id extra ils db.orgs).1
           (sm.valErrors (parse_odk_data row odk_etag odk_id extra ils db.orgs).1 existing)] ∧
    (sm.valErrors
        (removeKeys (parse_odk_data row odk_etag odk_id extra ils db.orgs).1
          (sm.valErrors (parse_odk_data row odk_etag odk_id extra ils db.orgs).1 existing))
        existing ≠ [] →
      (serialize_and_save sm ils db row odk_etag odk_id extra existing user_email).1.2
        = SaveOutcome.loggedInvalid ∧
      (serialize_and_save sm ils db row odk_etag odk_id extra existing user_email).1.1.projects
        = db.projects) := by
  have hss : serialize_and_save sm ils db row odk_etag odk_id extra existing user_email
      = serializeParsed sm
          { db with orgs := (parse_odk_data row odk_etag odk_id extra ils db.orgs).2 }
          (parse_odk_data row odk_etag odk_id extra ils db.orgs).1 existing user_email := rfl
  constructor
  · rw [hss, serializeParsed_snd, serializeParsedBody_trace _ _ _ _ _ h1]
  · intro h2
    have hb := serializeParsedBody_second_failure sm
      { db with orgs := (parse_odk_data row odk_etag odk_id extra ils db.orgs).2 }
      (parse_odk_data row odk_etag odk_id extra ils db.orgs).1 existing user_email h1 h2
    have hcaught := serializeParsed_invalid sm
      { db with orgs := (parse_odk_data row odk_etag odk_id extra ils db.orgs).2 }
      (parse_odk_data row odk_etag odk_id extra ils db.orgs).1 existing user_email
      (by rw [hb])
    rw [hss, hcaught]
    exact ⟨rfl, rfl⟩

/-- C2 witness: a serializer that keeps rejecting `odk_id` makes
`serialize_and_save` log the failure without saving. -/
theorem serialize_and_save_drop_retry_catch_witness :
    (serialize_and_save smReject [] dbEx rowComplete "e1" "i1" PyVal.none Option.none
      (some "alice@example.org")).1.2 = SaveOutcome.loggedInvalid ∧
    (serialize_and_save smReject [] dbEx rowComplete "e1" "i1" PyVal.none Option.none
      (some "alice@example.org")).1.1.projects = dbEx.projects :=
  (serialize_and_save_drop_retry_catch smReject [] dbEx rowComplete "e1" "i1" PyVal.none
    Option.none (some "alice@example.org") (by simp [smReject])).2 (by simp [smReject])

/-- C1: for a row passing the completeness filter, the task upserts by
`odk_id`: with no matching project it imports a new one; with a match whose
stored `odk_etag` is `None` it saves nothing; with a differing etag it
updates the existing project; with an equal etag it saves nothing. -/
theorem save_or_update_upsert_dispatch (sm : SerializerModel) (ils : List IntLink)
    (db : AppDB) (row : OdkRow) (user_email : Option String)
    (odk_etag odk_id : String) (extra : PyVal) :
    (passesFilter row = true →
      processOdkRow sm ils db row =
        (let r := save_or_update_project sm ils db row row.createUser
            (uuidParser row.rowETag) (uuidParser row.id) (odkExtraData row)
         (r.1, RowOutcome.upserted r.2))) ∧
    (db.projects.find? (fun p => p.odk_id == odk_id) = Option.none →
      save_or_update_project sm ils db row user_email odk_etag odk_id extra =
        (let r := serialize_and_save sm ils db row odk_etag odk_id extra Option.none user_email
         (r.1.1, UpsertResult.created r.1.2))) ∧
    (∀ p, db.projects.find? (fun p' => p'.odk_id == odk_id) = some p →
      p.odk_etag = Option.none →
      save_or_update_project sm ils db row user_email odk_etag odk_id extra
        = (db, UpsertResult.skippedNoEtag)) ∧
    (∀ p e, db.projects.find? (fun p' => p'.odk_id == odk_id) = some p →
      p.odk_etag = some e → e ≠ odk_etag →
      save_or_update_project sm ils db row user_email odk_etag odk_id extra =
        (let r := serialize_and_save sm ils db row odk_etag odk_id extra (some p) Option.none
         (r.1.1, UpsertResult.updatedVersion r.1.2))) ∧
    (∀ p, db.projects.find? (fun p' => p'.odk_id == odk_id) = some p →
      p.odk_etag = some odk_etag →
      save_or_update_project sm ils db row user_email odk_etag odk_id extra
        = (db, UpsertResult.skippedSameEtag)) := by
  refine ⟨?_, ?_, ?_, ?_, ?_⟩
  · intro hf
    unfold processOdkRow
    rw [if_pos hf]
  · intro hnone
    unfold save_or_update_project
    rw [hnone]
  · intro p hfind hnone
    unfold save_or_update_project
    simp only [hfind, hnone]
  · intro p e hfind hsome hne
    unfold save_or_update_project
    simp only [hfind, hsome]
    rw [if_pos hne]
  · intro p hfind hsome
    unfold save_or_update_project
    simp only [hfind, hsome]
    rw [if_neg (by simp)]

/-- C1 witness: a row whose etag matches the stored project is skipped. -/
theorem save_or_update_upsert_dispatch_witness :
    save_or_update_project smTriv [] dbEx rowComplete (some "alice@example.org") "e1" "i1"
      PyVal.none = (dbEx, UpsertResult.skippedSameEtag) :=
  (save_or_update_upsert_dispatch smTriv [] dbEx rowComplete (some "alice@example.org")
    "e1" "i1" PyVal.none).2.2.2.2 projEx rfl rfl

/-- C5: each missing related record is caught where it is looked up: a
missing UNICEF `Donor` or missing `Stage` question leaves the reminder
queryset untouched; a missing `UserProfile` skips that team member — and
likewise that reviewer in the review-reminder loop — while the loop goes on
with the rest (each loop equals a `filterMap`); a missing `User` for the
creator email is caught and logged (`loggedNoUser`, not `propagated`),
saving nothing. -/
theorem missing_related_records_skipped
    (donors : List DonorRec) (questions : List DCQRec) (projects : List StageProj)
    (fkp : String) (profiles : List ProfileRec) (draftProjects : List StageProj)
    (defaultLang : String) (members : List Nat) (reviewScores : List ReviewScore)
    (sm : SerializerModel) (ils : List IntLink) (db : AppDB) (row : OdkRow)
    (odk_etag odk_id : String) (extra : PyVal) (em : String) :
    (donors.find? (fun d => d.name == "UNICEF") = Option.none →
      exclude_specific_project_stages donors questions projects fkp = projects) ∧
    (∀ unicef, donors.find? (fun d => d.name == "UNICEF") = some unicef →
      questions.find? (fun q => q.donor == unicef.id && q.question == "Stage") = Option.none →
      exclude_specific_project_stages donors questions projects fkp = projects) ∧
    (draftNotifyMembers profiles draftProjects defaultLang members =
      members.filterMap (fun m => (profiles.find? (fun pr => pr.id == m)).map (fun prof =>
        { recipient := prof.email, language := orDefault prof.language defaultLang,
          projects := (draftProjects.filter (fun p => p.team.contains m)).map
            (fun p => p.id) }))) ∧
    (reviewNotifyReviewers profiles defaultLang reviewScores =
      reviewScores.filterMap (fun r =>
        (profiles.find? (fun pr => pr.id == r.reviewer)).map (fun prof =>
          ({ recipient := prof.email, language := orDefault prof.language defaultLang,
             reviewId := r.id } : ReviewMail)))) ∧
    (db.users.contains em = false →
      sm.valErrors (parse_odk_data row odk_etag odk_id extra ils db.orgs).1 Option.none = [] →
      (serialize_and_save sm ils db row odk_etag odk_id extra Option.none (some em)).1.2
        = SaveOutcome.loggedNoUser ∧
      (serialize_and_save sm ils db row odk_etag odk_id extra Option.none (some em)).1.1.projects
        = db.projects) := by
  refine ⟨?_, ?_, ?_, ?_, ?_⟩
  · intro hd
    unfold exclude_specific_project_stages
    rw [hd]
  · intro unicef hd hq
    unfold exclude_specific_project_stages
    simp only [hd, hq]
  · induction members with
    | nil => rfl
    | cons m rest ih =>
      cases hf : profiles.find? (fun pr => pr.id == m) with
      | none => simp [draftNotifyMembers, hf, ih]
      | some prof => simp [draftNotifyMembers, hf, ih]
  · induction reviewScores with
    | nil => rfl
    | cons r rest ih =>
      cases hf : profiles.find? (fun pr => pr.id == r.reviewer) with
      | none => simp [reviewNotifyReviewers, hf, ih]
      | some prof => simp [reviewNotifyReviewers, hf, ih]
  · intro hc hv
    have hss : serialize_and_save sm ils db row odk_etag odk_id extra Option.none (some em)
        = serializeParsed sm
            { db with orgs := (parse_odk_data row odk_etag odk_id extra ils db.orgs).2 }
            (parse_odk_data row odk_etag odk_id extra ils db.orgs).1 Option.none
            (some em) := rfl
    have hb : serializeParsedBody sm
        { db with orgs := (parse_odk_data row odk_etag odk_id extra ils db.orgs).2 }
        (parse_odk_data row odk_etag odk_id extra ils db.orgs).1 Option.none (some em)
        = (.error PyError.objectDoesNotExist,
           [(parse_odk_data row odk_etag odk_id extra ils db.orgs).1]) := by
      unfold serializeParsedBody
      rw [if_pos hv]
      unfold saveStep
      have hc' : em ∉ db.users := by simpa using hc
      simp [hc']
    have hcaught := serializeParsed_noUser sm
      { db with orgs := (parse_odk_data row odk_etag odk_id extra ils db.orgs).2 }
      (parse_odk_data row odk_etag odk_id extra ils db.orgs).1 Option.none (some em)
      (by rw [hb])
    rw [hss, hcaught]
    exact ⟨rfl, rfl⟩

/-- C5 witness: concrete instances of all five caught-and-skipped paths; in
the reviewer instance the first review's reviewer has no profile and is
skipped while the second still gets its mail. -/
theorem missing_related_records_skipped_witness :
    exclude_specific_project_stages [] []
      [{ id := 3, team := [], modifiedDaysAgo := 40, draftAnswers := [], dataAnswers := [] }]
      "draft"
      = [{ id := 3, team := [], modifiedDaysAgo := 40, draftAnswers := [], dataAnswers := [] }] ∧
    exclude_specific_project_stages [{ id := 1, name := "UNICEF" }] []
      [{ id := 3, team := [], modifiedDaysAgo := 40, draftAnswers := [], dataAnswers := [] }]
      "draft"
      = [{ id := 3, team := [], modifiedDaysAgo := 40, draftAnswers := [], dataAnswers := [] }] ∧
    draftNotifyMembers [] [] "en" [5] = [] ∧
    reviewNotifyReviewers
      [{ id := 9, email := "rev@example.org", language := some "en", name := "reviewer" }] "en"
      [{ id := 1, reviewer := 5, complete := false, modifiedDaysAgo := 40 },
       { id := 2, reviewer := 9, complete := false, modifiedDaysAgo := 40 }]
      = [{ recipient := "rev@example.org", language := "en", reviewId := 2 }] ∧
    (serialize_and_save smTriv [] dbEx rowComplete "e1" "i1" PyVal.none Option.none
      (some "bob@example.org")).1.2 = SaveOutcome.loggedNoUser :=
  ⟨(missing_related_records_skipped [] [] _ "draft" [] [] "en" [] [] smTriv [] dbEx rowComplete
      "e1" "i1" PyVal.none "bob@example.org").1 rfl,
   (missing_related_records_skipped [{ id := 1, name := "UNICEF" }] [] _ "draft" [] [] "en" []
      [] smTriv [] dbEx rowComplete "e1" "i1" PyVal.none "bob@example.org").2.1
      { id := 1, name := "UNICEF" } rfl rfl,
   ((missing_related_records_skipped [] [] [] "draft" [] [] "en" [5] [] smTriv [] dbEx
      rowComplete "e1" "i1" PyVal.none "bob@example.org").2.2.1).trans rfl,
   ((missing_related_records_skipped [] [] [] "draft"
      [{ id := 9, email := "rev@example.org", language := some "en", name := "reviewer" }]
      [] "en" []
      [{ id := 1, reviewer := 5, complete := false, modifiedDaysAgo := 40 },
       { id := 2, reviewer := 9, complete := false, modifiedDaysAgo := 40 }]
      smTriv [] dbEx rowComplete "e1" "i1" PyVal.none "bob@example.org").2.2.2.1).trans rfl,
   ((missing_related_records_skipped [] [] [] "draft" [] [] "en" [] [] smTriv [] dbEx
      rowComplete "e1" "i1" PyVal.none "bob@example.org").2.2.2.2 rfl rfl).1⟩

/-- C3 counterexample: `countryA` (approval enabled, has a user, no pending
project) is iterated first, the loop body executes `return`, and the run
sends nothing — although `countryB` has users, approval enabled and a
pending project, so the claim's universal guarantee fails. -/
theorem approval_digest_counterexample :
    send_project_approval_digest [countryA, countryB] [pendingProjB] = [] ∧
    countryB.project_approval = true ∧
    countryB.users ≠ [] ∧
    pendingFor [pendingProjB] countryB.id ≠ [] := by
  refine ⟨rfl, rfl, by decide, by decide⟩

/-- C3 (amended): a qualifying country's users all receive the digest
provided every approval-enabled country with users iterated before it still
has pending projects — otherwise the early `return` ends the task first. -/
theorem approval_digest_amended (countries : List CountryRec) (projs : List ApprovalProject)
    (pre post : List CountryRec) (c : CountryRec)
    (hsplit : countries.filter (fun c' => !c'.users.isEmpty) = pre ++ c :: post)
    (hpre : ∀ c' ∈ pre, c'.project_approval = true → pendingFor projs c'.id ≠ [])
    (hc : c.project_approval = true) (hpend : pendingFor projs c.id ≠ []) :
    ∀ m ∈ emailsForCountry c projs, m ∈ send_project_approval_digest countries projs := by
  intro m hm
  unfold send_project_approval_digest
  rw [hsplit]
  clear hsplit
  revert hpre
  induction pre with
  | nil =>
    intro _
    have hne : (pendingFor projs c.id).isEmpty = false := by
      cases hp : pendingFor projs c.id with
      | nil => exact absurd hp hpend
      | cons a l => rfl
    simp [digestLoop, hc, hne]
    exact Or.inl hm
  | cons c' rest ih =>
    intro hpre
    have hrest : ∀ c'' ∈ rest, c''.project_approval = true → pendingFor projs c''.id ≠ [] :=
      fun c'' h => hpre c'' (List.mem_cons_of_mem _ h)
    by_cases ha : c'.project_approval = true
    · have hne' : (pendingFor projs c'.id).isEmpty = false := by
        cases hp : pendingFor projs c'.id with
        | nil => exact absurd hp (hpre c' (List.mem_cons_self _ _) ha)
        | cons a l => rfl
      simp [digestLoop, ha, hne']
      exact Or.inr (ih hrest)
    · have ha' : c'.project_approval = false := by simpa using ha
      simp [digestLoop, ha']
      exact ih hrest

/-- C3 (amended) witness: with `countryB` first, its French-language group
receives the digest. -/
theorem approval_digest_amended_witness :
    ({ language := some "fr", recipients := ["bob@example.org"], country_name := "Borduria",
       projects := [10] } : DigestMail) ∈
      send_project_approval_digest [countryB] [pendingProjB] :=
  approval_digest_amended [countryB] [pendingProjB] [] [] countryB rfl
    (by intro c' h _; exact absurd h (List.not_mem_nil c')) rfl (by decide) _ (by decide)

/-- C6 witness: a successful 200/200 run fetched the export endpoint, with
the login POST first. -/
theorem sync_login_before_export_witness :
    (sync_project_from_odk "https" "odk.example.org" "tiip" 200 200 [] smTriv [] dbEx).events.take 1
      = [HttpEvent.post (loginUrl "https://odk.example.org") 200] ∧
    isErrorStatus 200 = false :=
  sync_login_before_export "https" "odk.example.org" "tiip" 200 200 [] smTriv [] dbEx 200
    (by decide)

end TIIP
